import Mathlib

/-!
# Verification of the autoimpute predictor/strategy resolution engine

Shallow embedding of `autoimpute/imputations/base_imputer.py` (class
`BaseImputer`) and `autoimpute/imputations/series/median.py`
(`MedianImputer`), followed by theorems settling the specification claims.

Modelling conventions:
* A pandas cell is `Cell`: missing (`na`), numeric (`Rat`), string, datetime
  tick, or boolean.  A pandas dtype is `Dtype`; `Dtype.boolean` stands for the
  pandas dtypes (bool, category, timedelta, ...) that are neither
  `np.number`, `np.object` nor `np.datetime64`.
* A `DFrame` is the input DataFrame: a row index plus an ordered list of
  typed, named columns.  A `Frame` is a derived DataFrame (column blocks,
  dummy frames, missingness mask): a row index plus an ordered association
  list from column label to cell list.
* Python functions that can `raise`, `return`, or fall through (implicitly
  returning `None`) land in `PyRes`.
* Python `dict` is an insertion-ordered association list; comprehensions and
  item assignment go through `dictInsert`.
* `list(set(a).intersection(b))` enumerates a hash set, whose order CPython
  does not fix; it is modelled by an oracle list constrained by `SetListOf`
  (duplicate-free, exactly the members of the intersection).
-/

set_option maxRecDepth 4000

/-- A pandas dtype, as dispatched on by `select_dtypes`.  `boolean` stands for
any dtype that is none of `np.number`, `np.object`, `np.datetime64`
(e.g. bool, category, timedelta). -/
inductive Dtype where
  | num
  | obj
  | time
  | boolean
deriving DecidableEq

/-- A pandas cell value. -/
inductive Cell where
  | na
  | num (q : Rat)
  | str (s : String)
  | time (t : Nat)
  | bool (b : Bool)
deriving DecidableEq

/-- One named, typed column of the input DataFrame. -/
structure Col where
  name : String
  dtype : Dtype
  values : List Cell
deriving DecidableEq

/-- The input DataFrame handed to `_prep_fit_dataframe`: a row index plus
ordered columns. -/
structure DFrame where
  idx : List Nat
  cols : List Col
deriving DecidableEq

/-- The names of the DataFrame's columns, in declaration order. -/
def DFrame.colNames (df : DFrame) : List String :=
  df.cols.map Col.name

/-- A derived pandas DataFrame (a column block): row index plus ordered
label/values pairs. -/
structure Frame where
  idx : List Nat
  cols : List (String × List Cell)
deriving DecidableEq

/-- Column labels of a derived frame, in order (`df.columns.tolist()`). -/
def Frame.colNames (f : Frame) : List String :=
  f.cols.map Prod.fst

/-- `DataFrame.size`: number of rows times number of columns. -/
def Frame.size (f : Frame) : Nat :=
  f.cols.length * f.idx.length

/-- `pd.DataFrame()`: the empty frame (empty index, no columns). -/
def Frame.empty : Frame :=
  { idx := [], cols := [] }

/-- `df.drop(c, axis=1)`: removes every column labelled `c`. -/
def Frame.dropCol (f : Frame) (c : String) : Frame :=
  { idx := f.idx, cols := f.cols.filter (fun p => p.1 ≠ c) }

/-- `df[names]` for a list of labels: for each requested label, all columns of
`f` carrying that label, in request order. -/
def Frame.selectCols (f : Frame) (names : List String) : Frame :=
  { idx := f.idx, cols := names.flatMap (fun n => f.cols.filter (fun p => p.1 = n)) }

/-- `df[c]` for a single label: the cell list of the first column labelled
`c` (empty if absent; the claims only use it for present labels). -/
def Frame.getCol (f : Frame) (c : String) : List Cell :=
  match f.cols.find? (fun p => p.1 = c) with
  | some p => p.2
  | none => []

/-- Result of a Python call: a returned value, an implicit `return None`
fall-through, a raised `ValueError`/`TypeError`, or a crash from using an
unassigned local (`NameError`). -/
inductive PyRes (α : Type) where
  | val (a : α)
  | none
  | valueError (msg : String)
  | typeError (msg : String)
  | nameError
deriving DecidableEq

/-- A Python `dict` assignment `d[k] = v`: updates the first binding of `k`
in place, otherwise appends (insertion order). -/
def dictInsert {β : Type} (d : List (String × β)) (k : String) (v : β) :
    List (String × β) :=
  if k ∈ d.map Prod.fst then
    d.map (fun p => if p.1 = k then (k, v) else p)
  else
    d ++ [(k, v)]

/-- A Python `dict` comprehension over a pair list, built left to right. -/
def pyDict {β : Type} (ps : List (String × β)) : List (String × β) :=
  ps.foldl (fun d p => dictInsert d p.1 p.2) []

/-- The keys of an association list, in order. -/
def keysOf {β : Type} (d : List (String × β)) : List String :=
  d.map Prod.fst

/-- First value bound to `k`, if any (Python `d[k]` succeeding). -/
def lookupD {β : Type} (d : List (String × β)) (k : String) : Option β :=
  match d.find? (fun p => p.1 = k) with
  | some p => some p.2
  | none => none

/-- The strategy argument of an imputer: a string, an ordered sequence
(list/tuple), a dict, or any other Python object (`other`). -/
inductive StratSpec where
  | str (s : String)
  | list (l : List String)
  | dict (d : List (String × String))
  | other
deriving DecidableEq

/-- `check_strategy_allowed(strat_names, s)` from `base_imputer.py`:
validates the strategies named in `s` against the allowed set and returns
`s` unchanged, raising `ValueError` for unknown strategies and `TypeError`
for an unsupported shape. -/
def check_strategy_allowed (strat_names : List String) (s : StratSpec) :
    PyRes StratSpec :=
  match s with
  | .str v =>
      if v ∉ strat_names then
        .valueError ("Strategy " ++ v ++ " not a valid imputation method.")
      else
        .val s
  | .list l =>
      if (l.filter (fun x => x ∉ strat_names)) ≠ [] then
        .valueError "Strategies not valid imputation."
      else
        .val s
  | .dict d =>
      if ((d.map Prod.snd).filter (fun x => x ∉ strat_names)) ≠ [] then
        .valueError "Strategies not valid imputation."
      else
        .val s
  | .other => .typeError "Strategy must be string, tuple, list, or dict."

/-- The length-mismatch message raised by `check_strategy_fit` for a
list/tuple strategy whose length differs from the column count. -/
def strategyLengthErr (c_l s_l : Nat) : String :=
  "Length of columns not equal to number of strategies.\n" ++
    "Length of columns: " ++ toString c_l ++ "\n" ++
    "Length of strategies: " ++ toString s_l

/-- `check_strategy_fit(s, cols)` from `base_imputer.py`: broadcasts a string
strategy to every column, zips a list/tuple strategy position-wise after a
length check, and returns a dict strategy unchanged after a key check.  Any
other shape falls off the end of the function (implicit `return None`). -/
def check_strategy_fit (s : StratSpec) (cols : List String) :
    PyRes (List (String × String)) :=
  match s with
  | .str v => .val (pyDict (cols.map (fun c => (c, v))))
  | .list l =>
      if l.length ≠ cols.length then
        .valueError (strategyLengthErr cols.length l.length)
      else
        .val (pyDict (cols.zip l))
  | .dict d =>
      if (keysOf d).filter (fun k => k ∉ cols) ≠ [] then
        .valueError "Keys of strategies and column names must match."
      else
        .val d
  | .other => .none

/-- Strategy resolution as the engine performs it: `check_strategy_allowed`
at construction time, then `check_strategy_fit` against the dataset columns. -/
def resolve_strategy (strat_names : List String) (s : StratSpec)
    (cols : List String) : PyRes (List (String × String)) :=
  match check_strategy_allowed strat_names s with
  | .val s => check_strategy_fit s cols
  | .none => .none
  | .valueError m => .valueError m
  | .typeError m => .typeError m
  | .nameError => .nameError

/-- A value of a dict-shaped predictor spec: a string, a list/tuple of
column names, or any other Python object. -/
inductive PredEntry where
  | str (s : String)
  | list (l : List String)
  | other
deriving DecidableEq

/-- The predictors argument: a string, a list/tuple, a dict, or any other
Python object. -/
inductive PredSpec where
  | str (s : String)
  | list (l : List String)
  | dict (d : List (String × PredEntry))
  | other
deriving DecidableEq

/-- Validation applied to one value of a dict-shaped predictor spec inside
`check_predictors_fit`'s loop: the first error message it raises, if any. -/
def predEntryErr (cols : List String) (k : String) (e : PredEntry) :
    Option String :=
  match e with
  | .str s =>
      if s ≠ "all" ∧ s ∉ cols then
        some ("Invalid column as only predictor for " ++ k ++ ".")
      else
        Option.none
  | .list l =>
      if l.filter (fun p => p ∉ cols) ≠ [] then
        some ("Predictors for " ++ k ++ " not a valid column in X.")
      else
        Option.none
  | .other => some "Values in predictor must be str, list, or tuple."

/-- `check_predictors_fit(predictors, cols)` from `base_imputer.py`.  A string
must be `"all"` or a column name and is broadcast to every column; a
list/tuple must name columns and is broadcast; a dict must have keys among
`cols` and string/list/tuple values naming columns, after which every column
missing from the dict is assigned `"all"`.  Any other shape falls off the end
of the function (implicit `return None`). -/
def check_predictors_fit (predictors : PredSpec) (cols : List String) :
    PyRes (List (String × PredEntry)) :=
  match predictors with
  | .str s =>
      if s ≠ "all" ∧ s ∉ cols then
        .valueError ("String " ++ s ++ " must be valid column in X.\n" ++
          "To use all columns, set predictors='all'.")
      else
        .val (pyDict (cols.map (fun c => (c, PredEntry.str s))))
  | .list l =>
      if l.filter (fun p => p ∉ cols) ≠ [] then
        .valueError "Predictors not a valid column in X."
      else
        .val (pyDict (cols.map (fun c => (c, PredEntry.list l))))
  | .dict d =>
      if (keysOf d).filter (fun k => k ∉ cols) ≠ [] then
        .valueError "Keys of strategies and column names must match."
      else
        match d.findSome? (fun p => predEntryErr cols p.1 p.2) with
        | some m => .valueError m
        | Option.none =>
            .val (cols.foldl
              (fun acc c =>
                if c ∈ keysOf acc then acc
                else dictInsert acc c (PredEntry.str "all"))
              d)
  | .other => .none

/-- Insert into a `le`-sorted list, keeping it sorted (kernel-reducible
sorting primitive backing the sorted orders pandas produces). -/
def insertSorted {α : Type} (le : α → α → Bool) (x : α) : List α → List α
  | [] => [x]
  | y :: ys => if le x y then x :: y :: ys else y :: insertSorted le x ys

/-- Insertion sort by `le`. -/
def insertionSort {α : Type} (le : α → α → Bool) (l : List α) : List α :=
  l.foldr (insertSorted le) []

/-- `pd.Series.median()`: the middle of the sorted observed values, the mean
of the two middles for an even count, `NaN` (here `none`) when nothing is
observed.  `X : List (Option Rat)` is a numeric series with `none` for
missing cells. -/
def pandasMedian (xs : List (Option Rat)) : Option Rat :=
  let obs := xs.filterMap id
  let s := insertionSort (fun a b => a ≤ b) obs
  let n := s.length
  if n = 0 then Option.none
  else if n % 2 = 1 then s.getD (n / 2) 0
  else some ((s.getD (n / 2 - 1) 0 + s.getD (n / 2) 0) / 2)

/-- The fitted state of `MedianImputer`: `statistics_ = {"param": median,
"strategy": "median"}`. -/
structure MedianImputerState where
  param : Option Rat
  strategy : String
deriving DecidableEq

/-- `MedianImputer.fit(X)` from `median.py`: records the median of the
observed data. -/
def MedianImputer.fit (X : List (Option Rat)) : MedianImputerState :=
  { param := pandasMedian X, strategy := "median" }

/-- `MedianImputer.impute(X)` from `median.py`: returns the scalar stored at
fit time; `X` participates only in the numeric-series check. -/
def MedianImputer.impute (st : MedianImputerState) (_X : List (Option Rat)) :
    Option Rat :=
  st.param

/-- `X.select_dtypes(include=(t,))`: the columns of `df` whose dtype is `t`,
in declaration order, keeping the row index. -/
def selectDtypes (df : DFrame) (t : Dtype) : Frame :=
  { idx := df.idx
    cols := (df.cols.filter (fun c => c.dtype = t)).map
      (fun c => (c.name, c.values)) }

/-- Lexicographic order on character lists by code point (the order Python
sorts strings in), written to be kernel-reducible. -/
def charListLt : List Char → List Char → Bool
  | [], [] => false
  | [], _ :: _ => true
  | _ :: _, [] => false
  | a :: as, b :: bs =>
      if a.toNat < b.toNat then true
      else if b.toNat < a.toNat then false
      else charListLt as bs

/-- `a <= b` on strings by code point. -/
def strLe (a b : String) : Bool := !(charListLt b.data a.data)

/-- The distinct observed string categories of an object column, sorted —
`pd.get_dummies` sorts its category levels. -/
def dummyCats (values : List Cell) : List String :=
  insertionSort strLe
    ((values.filterMap (fun c =>
      match c with
      | .str s => some s
      | _ => Option.none)).dedup)

/-- `pd.get_dummies(series, prefix=name)`: one 0/1 indicator column per
distinct observed category, labelled `name_category`, missing cells scoring
0 everywhere. -/
def getDummies (idx : List Nat) (name : String) (values : List Cell) :
    Frame :=
  { idx := idx
    cols := (dummyCats values).map (fun v =>
      (name ++ "_" ++ v,
        values.map (fun c => if c = Cell.str v then Cell.num 1 else Cell.num 0))) }

/-- The attributes `_prep_fit_dataframe` records on the imputer. -/
structure FitState where
  X_idx : List Nat
  data_mi : Frame
  data_num : Frame
  cols_num : List String
  len_num : Nat
  data_time : Frame
  cols_time : List String
  len_time : Nat
  orig_dum : List String
  dum_dict : List (String × List String)
  data_dum : Frame
  cols_dum : List String
  len_dum : Nat
deriving DecidableEq

/-- `_prep_fit_dataframe(X)` from `base_imputer.py`: records the missingness
mask `pd.isnull(X)*1`, the numeric block (`np.number`), the datetime block
(`np.datetime64`), and one-hot-encodes the object block, remembering for each
object column the labels of its generated dummy columns.  `pd.concat` of the
per-column dummy frames (which all share `X`'s index) shares `X`'s index. -/
def prep_fit_dataframe (df : DFrame) : FitState :=
  let data_mi : Frame :=
    { idx := df.idx
      cols := df.cols.map (fun c =>
        (c.name, c.values.map (fun v =>
          if v = Cell.na then Cell.num 1 else Cell.num 0))) }
  let data_num := selectDtypes df .num
  let data_time := selectDtypes df .time
  let origFrame := selectDtypes df .obj
  let data_dum : Frame :=
    if origFrame.cols = [] then Frame.empty
    else
      { idx := df.idx
        cols := (origFrame.cols.map
          (fun p => (getDummies df.idx p.1 p.2).cols)).flatten }
  { X_idx := df.idx
    data_mi := data_mi
    data_num := data_num
    cols_num := data_num.colNames
    len_num := data_num.colNames.length
    data_time := data_time
    cols_time := data_time.colNames
    len_time := data_time.colNames.length
    orig_dum := origFrame.colNames
    dum_dict := origFrame.cols.map
      (fun p => (p.1, (getDummies df.idx p.1 p.2).colNames))
    data_dum := data_dum
    cols_dum := data_dum.colNames
    len_dum := data_dum.colNames.length }

/-- The dummy labels `_dum_dict` records for column `c` (empty when `c` is
not an encoded categorical column). -/
def dumsOf (st : FitState) (c : String) : List String :=
  (lookupD st.dum_dict c).getD []

/-- The numeric frame both assembly routines start from: `_data_num` with the
target dropped when the target is itself numeric. -/
def numCandidates (st : FitState) (c : String) : Frame :=
  if c ∈ st.cols_num then st.data_num.dropCol c else st.data_num

/-- `_use_all_cols(c)` from `base_imputer.py`: the numeric block without the
target, the dummy block restricted to dummies of categorical columns other
than the target, and the whole datetime block. -/
def use_all_cols (st : FitState) (c : String) : Frame × Frame × Frame :=
  let num_cols := numCandidates st c
  let dum_cols :=
    if c ∈ st.orig_dum then
      let d_fc := ((st.dum_dict.filter (fun p => p.1 ≠ c)).map Prod.snd).flatten
      let d := st.data_dum.colNames.filter (fun k => k ∈ d_fc)
      st.data_dum.selectCols d
    else
      st.data_dum
  (num_cols, dum_cols, st.data_time)

/-- Any list CPython's `list(set(a).intersection(b))` can produce: a
duplicate-free enumeration of exactly the common members of `a` and `b`. -/
def SetListOf (out a b : List String) : Prop :=
  out.Perm ((a.dedup).filter (fun x => x ∈ b))

/-- `_use_iter_cols(c, preds)` from `base_imputer.py`.  `nsel` and `tsel` are
the enumerations CPython produced for `list(set(preds).intersection(...))` on
the numeric candidates and on the datetime columns; theorems constrain them
with `SetListOf`. -/
def use_iter_cols (st : FitState) (c : String) (preds : List String)
    (nsel tsel : List String) : Frame × Frame × Frame :=
  let cn := numCandidates st c
  let num_cols := cn.selectCols nsel
  let d_c :=
    if c ∈ st.orig_dum then
      (st.dum_dict.filter (fun p => p.1 ≠ c ∧ p.1 ∈ preds)).map Prod.snd
    else
      (st.dum_dict.filter (fun p => p.1 ∈ preds)).map Prod.snd
  let d_fc := d_c.flatten
  let d := st.data_dum.colNames.filter (fun k => k ∈ d_fc)
  let dum_cols := st.data_dum.selectCols d
  let time_cols := st.data_time.selectCols tsel
  (num_cols, dum_cols, time_cols)

/-- The numeric/dummy/datetime blocks `_prep_predictor_cols` computes for
target `c` from its resolved predictor entry (junk on an invalid entry, which
the caller maps to a crash). -/
def blocksFor (st : FitState) (c : String) (entry : PredEntry)
    (nsel tsel : List String) : Frame × Frame × Frame :=
  match entry with
  | .str s =>
      if s = "all" then use_all_cols st c
      else use_iter_cols st c [s] nsel tsel
  | .list l => use_iter_cols st c l nsel tsel
  | .other => (Frame.empty, Frame.empty, Frame.empty)

/-- The predictor name list `_use_iter_cols` receives for a resolved entry
(the broadcast singleton for a single-column string). -/
def predsOf (entry : PredEntry) : List String :=
  match entry with
  | .str s => [s]
  | .list l => l
  | .other => []

/-- The message of the `ValueError` raised when no block contributes a
predictor column for target `c`. -/
def noPredictorErr (c : String) : String :=
  "Need at least one predictor column to fit " ++ c ++ "."

/-- The message `pd.concat` raises on an empty list of objects. -/
def concatEmptyErr : String :=
  "No objects to concatenate"

/-- `_prep_predictor_cols(c, predictors)` from `base_imputer.py`, applied to
the resolved entry `predictors[c]`.  Computes the three blocks, raises when
all three are label-empty, keeps only the blocks of positive `size`
(rows × columns), concatenates them, and pairs the result with the target's
missingness-mask column.  An entry that is neither a string nor a list/tuple
leaves the block locals unassigned, crashing with `NameError`. -/
def prep_predictor_cols (st : FitState) (c : String) (entry : PredEntry)
    (nsel tsel : List String) : PyRes (Frame × List Cell) :=
  match entry with
  | .other => .nameError
  | _ =>
    let b := blocksFor st c entry nsel tsel
    let num := b.1
    let dum := b.2.1
    let time := b.2.2
    if num.colNames = [] ∧ dum.colNames = [] ∧ time.colNames = [] then
      .valueError (noPredictorErr c)
    else
      match ([num, dum, time].filter (fun p => 0 < p.size)) with
      | [] => .valueError concatEmptyErr
      | p :: ps =>
          .val ({ idx := p.idx, cols := ((p :: ps).map Frame.cols).flatten },
            st.data_mi.getCol c)

/-- `_scaler_fit` followed by `_scaler_transform` from `base_imputer.py`,
with the configured scaler's fitted transform modelled as `f` on row-major
cell matrices.  Each non-empty block is replaced by
`pd.DataFrame(transformed, columns=labels)`, whose row index is the default
`RangeIndex` — the saved `_X_idx` is not passed on. -/
def scaler_fit_transform (st : FitState)
    (f : List (List Cell) → List (List Cell)) : FitState :=
  let rows (fr : Frame) : List (List Cell) :=
    (List.range fr.idx.length).map (fun i =>
      fr.cols.map (fun p => p.2.getD i Cell.na))
  let rebuilt (fr : Frame) (labels : List String) : Frame :=
    let out := f (rows fr)
    { idx := List.range out.length
      cols := labels.enum.map (fun p =>
        (p.2, out.map (fun r => r.getD p.1 Cell.na))) }
  let st₁ :=
    if 0 < st.len_num then
      { st with data_num := rebuilt st.data_num st.cols_num }
    else st
  if 0 < st.len_dum then
    { st₁ with data_dum := rebuilt st₁.data_dum st₁.cols_dum }
  else st₁

/-- The mapping `check_predictors_fit` hands back for a validated dict spec:
the caller's entries followed by an `"all"` entry for every column the caller
omitted, in column order. -/
def autoFilled (d : List (String × PredEntry)) (cols : List String) :
    List (String × PredEntry) :=
  d ++ (cols.filter (fun c => c ∉ keysOf d)).map
    (fun c => (c, PredEntry.str "all"))

/-- The design matrix's column labels out of a `_prep_predictor_cols` result,
when it returned one. -/
def prepXNames (r : PyRes (Frame × List Cell)) : Option (List String) :=
  match r with
  | .val p => some p.1.colNames
  | _ => Option.none

/-- Example dataset: `A` numeric, `B` categorical with observed values
`x`/`y`, `C` datetime (the spec's assembly scenario). -/
def dfEx : DFrame :=
  { idx := [0, 1]
    cols := [
      { name := "A", dtype := .num, values := [Cell.num 1, Cell.na] },
      { name := "B", dtype := .obj, values := [Cell.str "x", Cell.str "y"] },
      { name := "C", dtype := .time, values := [Cell.time 5, Cell.time 6] }] }

/-- Example dataset with three numeric columns and one row. -/
def dfNum3 : DFrame :=
  { idx := [0]
    cols := [
      { name := "A", dtype := .num, values := [Cell.num 1] },
      { name := "B1", dtype := .num, values := [Cell.num 2] },
      { name := "B2", dtype := .num, values := [Cell.num 3] }] }

/-- Example dataset with two numeric columns and zero rows. -/
def dfZero : DFrame :=
  { idx := []
    cols := [
      { name := "A", dtype := .num, values := [] },
      { name := "B", dtype := .num, values := [] }] }

/-- Example dataset with a single bool-typed column. -/
def dfBool : DFrame :=
  { idx := [0]
    cols := [{ name := "F", dtype := .boolean, values := [Cell.bool true] }] }

/-- Example dataset with one numeric column and a non-default row index. -/
def dfIdx : DFrame :=
  { idx := [5, 6]
    cols := [{ name := "A", dtype := .num, values := [Cell.num 1, Cell.num 2] }] }

/-! ## Association-list (Python dict) lemmas -/

theorem keysOf_append {β : Type} (d e : List (String × β)) :
    keysOf (d ++ e) = keysOf d ++ keysOf e :=
  List.map_append Prod.fst d e

theorem dictInsert_of_not_mem {β : Type} (d : List (String × β)) (k : String)
    (v : β) (h : k ∉ keysOf d) : dictInsert d k v = d ++ [(k, v)] := by
  unfold dictInsert
  rw [if_neg]
  exact h

theorem pyDict_foldl_eq {β : Type} :
    ∀ (ps acc : List (String × β)), (keysOf acc ++ keysOf ps).Nodup →
      ps.foldl (fun d p => dictInsert d p.1 p.2) acc = acc ++ ps := by
  intro ps
  induction ps with
  | nil => intro acc _; simp
  | cons p ps ih =>
      intro acc h
      have hnd : (keysOf (acc ++ [p]) ++ keysOf ps).Nodup := by
        simpa [keysOf_append, keysOf, List.append_assoc] using h
      have hnotin : p.1 ∉ keysOf acc := by
        have hdisj := (List.nodup_append.mp h).2.2
        intro hmem
        exact hdisj hmem (by simp [keysOf])
      calc (p :: ps).foldl (fun d q => dictInsert d q.1 q.2) acc
      _ = ps.foldl (fun d q => dictInsert d q.1 q.2) (dictInsert acc p.1 p.2) := rfl
      _ = ps.foldl (fun d q => dictInsert d q.1 q.2) (acc ++ [p]) := by
            rw [dictInsert_of_not_mem acc p.1 p.2 hnotin]
      _ = (acc ++ [p]) ++ ps := ih (acc ++ [p]) hnd
      _ = acc ++ p :: ps := by simp

theorem pyDict_eq_self {β : Type} (ps : List (String × β))
    (h : (keysOf ps).Nodup) : pyDict ps = ps := by
  unfold pyDict
  have := pyDict_foldl_eq ps [] (by simpa [keysOf] using h)
  simpa using this

theorem lookupD_eq_none {β : Type} (d : List (String × β)) (k : String)
    (h : k ∉ keysOf d) : lookupD d k = Option.none := by
  unfold lookupD
  rw [List.find?_eq_none.mpr]
  intro p hp
  simp only [decide_eq_true_eq]
  intro hk
  exact h (hk ▸ List.mem_map_of_mem Prod.fst hp)

theorem lookupD_append_right {β : Type} (d e : List (String × β)) (k : String)
    (h : k ∉ keysOf d) : lookupD (d ++ e) k = lookupD e k := by
  induction d with
  | nil => simp
  | cons p d ih =>
      have hk : ¬(p.1 = k) := by
        intro hkk
        exact h (by simp [keysOf, hkk])
      have h' : k ∉ keysOf d := by
        intro hm
        exact h (by simp [keysOf] at hm ⊢; exact Or.inr hm)
      simp only [List.cons_append, lookupD, List.find?_cons]
      rw [show (decide (p.1 = k)) = false by simpa using hk]
      exact ih h'

theorem lookupD_map_const {β : Type} (l : List String) (k : String) (v : β)
    (h : k ∈ l) : lookupD (l.map (fun c => (c, v))) k = some v := by
  induction l with
  | nil => simp at h
  | cons a l ih =>
      by_cases hak : a = k
      · simp [lookupD, List.find?_cons, hak]
      · have hk : k ∈ l := by
          rcases List.mem_cons.mp h with h1 | h1
          · exact absurd h1.symm hak
          · exact h1
        simp only [List.map_cons, lookupD, List.find?_cons]
        rw [show (decide (a = k)) = false by simpa using hak]
        exact ih hk

theorem lookupD_mem {β : Type} (d : List (String × β)) (k : String) (v : β)
    (h : lookupD d k = some v) : ∃ p ∈ d, p.1 = k ∧ p.2 = v := by
  unfold lookupD at h
  cases hf : d.find? (fun p => p.1 = k) with
  | none => rw [hf] at h; simp at h
  | some p =>
      rw [hf] at h
      refine ⟨p, List.mem_of_find?_eq_some hf, ?_, ?_⟩
      · have := List.find?_some hf
        simpa using this
      · simpa using h

/-! ## Claim C10 — MedianImputer.impute returns the fitted scalar -/

/-- C10: for every fitted `MedianImputer`, `impute(X)` returns the single
scalar median computed and stored at fit time, the same value for any input
series `X` — a scalar, not a per-missing-entry vector. -/
theorem medianImputer_impute_returns_fit_scalar
    (Xfit X X' : List (Option Rat)) :
    MedianImputer.impute (MedianImputer.fit Xfit) X = pandasMedian Xfit
    ∧ MedianImputer.impute (MedianImputer.fit Xfit) X
        = MedianImputer.impute (MedianImputer.fit Xfit) X' :=
  ⟨rfl, rfl⟩

/-! ## Claim C4 — check_predictors_fit on a non-str/list/tuple/dict spec -/

/-- C4 counterexample: on the spec shape `other` (e.g. an int) with columns
`["A"]`, `check_predictors_fit` does not raise a `TypeError`: it matches no
branch and implicitly returns `None`. -/
theorem check_predictors_fit_other_no_typeError_cx :
    check_predictors_fit PredSpec.other ["A"] = PyRes.none := rfl

/-- C4 amended: for every column list, a predictor spec that is not a
string, list, tuple, or dict falls through every branch of
`check_predictors_fit`, which implicitly returns `None` instead of raising. -/
theorem check_predictors_fit_other_falls_through (cols : List String) :
    check_predictors_fit PredSpec.other cols = PyRes.none := rfl

/-! ## Claim C6 — check_strategy_fit dict specs are not auto-completed -/

/-- C6: a dict-shaped strategy spec whose keys all name dataset columns is
returned by `check_strategy_fit` exactly as supplied — omitted columns get no
default entry (unlike `check_predictors_fit`'s dict handling). -/
theorem check_strategy_fit_dict_no_autocomplete (d : List (String × String))
    (cols : List String) (hk : ∀ k ∈ keysOf d, k ∈ cols) :
    check_strategy_fit (.dict d) cols = .val d := by
  show (if (keysOf d).filter (fun k => k ∉ cols) ≠ [] then
      PyRes.valueError "Keys of strategies and column names must match."
    else .val d) = .val d
  rw [if_neg]
  simp only [ne_eq, Decidable.not_not]
  rw [List.filter_eq_nil_iff]
  intro k hkm
  simpa using hk k hkm

/-- C6 witness: strategy dict `{"A": "mean"}` over columns `{A, B}` resolves
to exactly `{"A": "mean"}`; `B` gets no entry. -/
theorem check_strategy_fit_dict_no_autocomplete_witness :
    check_strategy_fit (.dict [("A", "mean")]) ["A", "B"]
      = .val [("A", "mean")] :=
  check_strategy_fit_dict_no_autocomplete [("A", "mean")] ["A", "B"]
    (by decide)

/-! ## Claim C5 — list-shaped strategy specs -/

/-- C5: resolving a list/tuple strategy spec fails when some element is not
an allowed strategy, fails with the length-mismatch error when all elements
are allowed but the list's length differs from the column count, and
otherwise returns the position-wise pairing of columns with strategies. -/
theorem resolve_strategy_list_spec (strat_names l cols : List String) :
    ((∃ x ∈ l, x ∉ strat_names) →
      resolve_strategy strat_names (.list l) cols
        = .valueError "Strategies not valid imputation.")
    ∧ ((∀ x ∈ l, x ∈ strat_names) → l.length ≠ cols.length →
      resolve_strategy strat_names (.list l) cols
        = .valueError (strategyLengthErr cols.length l.length))
    ∧ ((∀ x ∈ l, x ∈ strat_names) → l.length = cols.length → cols.Nodup →
      resolve_strategy strat_names (.list l) cols = .val (cols.zip l)) := by
  refine ⟨?_, ?_, ?_⟩
  · rintro ⟨x, hxl, hxbad⟩
    have hne : l.filter (fun x => x ∉ strat_names) ≠ [] := by
      intro hnil
      have := List.filter_eq_nil_iff.mp hnil x hxl
      simp [hxbad] at this
    have h1 : check_strategy_allowed strat_names (.list l)
        = .valueError "Strategies not valid imputation." := by
      show (if l.filter (fun x => x ∉ strat_names) ≠ [] then
          PyRes.valueError "Strategies not valid imputation."
        else PyRes.val (StratSpec.list l))
        = PyRes.valueError "Strategies not valid imputation."
      rw [if_pos hne]
    unfold resolve_strategy
    rw [h1]
  · intro hall hlen
    have hnil : l.filter (fun x => x ∉ strat_names) = [] := by
      rw [List.filter_eq_nil_iff]
      intro x hx
      simpa using hall x hx
    have h1 : check_strategy_allowed strat_names (.list l)
        = .val (.list l) := by
      show (if l.filter (fun x => x ∉ strat_names) ≠ [] then
          PyRes.valueError "Strategies not valid imputation."
        else PyRes.val (StratSpec.list l))
        = PyRes.val (StratSpec.list l)
      rw [if_neg (fun h => h hnil)]
    unfold resolve_strategy
    rw [h1]
    show (if l.length ≠ cols.length then
        PyRes.valueError (strategyLengthErr cols.length l.length)
      else PyRes.val (pyDict (cols.zip l)))
      = PyRes.valueError (strategyLengthErr cols.length l.length)
    rw [if_pos hlen]
  · intro hall hlen hnd
    have hnil : l.filter (fun x => x ∉ strat_names) = [] := by
      rw [List.filter_eq_nil_iff]
      intro x hx
      simpa using hall x hx
    have h1 : check_strategy_allowed strat_names (.list l)
        = .val (.list l) := by
      show (if l.filter (fun x => x ∉ strat_names) ≠ [] then
          PyRes.valueError "Strategies not valid imputation."
        else PyRes.val (StratSpec.list l))
        = PyRes.val (StratSpec.list l)
      rw [if_neg (fun h => h hnil)]
    have hkeys : keysOf (cols.zip l) = cols := by
      unfold keysOf
      exact List.map_fst_zip cols l (le_of_eq hlen.symm)
    have hpy : pyDict (cols.zip l) = cols.zip l :=
      pyDict_eq_self (cols.zip l) (by rw [hkeys]; exact hnd)
    unfold resolve_strategy
    rw [h1]
    show (if l.length ≠ cols.length then
        PyRes.valueError (strategyLengthErr cols.length l.length)
      else PyRes.val (pyDict (cols.zip l)))
      = PyRes.val (cols.zip l)
    rw [if_neg (fun h => h hlen), hpy]

/-- C5 witness: with allowed strategies `{mean, median}`, the spec `["pmm"]`
over `{A}` fails as not allowed; `["mean"]` over `{A, B}` fails with the
length mismatch; `["mean", "median"]` over `{A, B}` maps position-wise. -/
theorem resolve_strategy_list_spec_witness :
    resolve_strategy ["mean", "median"] (.list ["pmm"]) ["A"]
      = .valueError "Strategies not valid imputation."
    ∧ resolve_strategy ["mean", "median"] (.list ["mean"]) ["A", "B"]
      = .valueError (strategyLengthErr 2 1)
    ∧ resolve_strategy ["mean", "median"] (.list ["mean", "median"]) ["A", "B"]
      = .val [("A", "mean"), ("B", "median")] := by
  refine ⟨?_, ?_, ?_⟩
  · exact (resolve_strategy_list_spec ["mean", "median"] ["pmm"] ["A"]).1
      ⟨"pmm", by decide, by decide⟩
  · exact (resolve_strategy_list_spec ["mean", "median"] ["mean"]
      ["A", "B"]).2.1 (by decide) (by decide)
  · exact (resolve_strategy_list_spec ["mean", "median"] ["mean", "median"]
      ["A", "B"]).2.2 (by decide) (by decide) (by decide)

/-! ## Claim C2 — check_predictors_fit dict specs are auto-completed -/

theorem keysOf_map_pair {β : Type} (l : List String) (v : β) :
    keysOf (l.map (fun c => (c, v))) = l := by
  induction l with
  | nil => rfl
  | cons a l ih => simp [keysOf] at ih ⊢; exact ih

theorem fold_autofill :
    ∀ (cols : List String) (acc : List (String × PredEntry)), cols.Nodup →
      cols.foldl
        (fun d c => if c ∈ keysOf d then d
          else dictInsert d c (PredEntry.str "all")) acc
      = acc ++ (cols.filter (fun c => c ∉ keysOf acc)).map
          (fun c => (c, PredEntry.str "all")) := by
  intro cols
  induction cols with
  | nil => intro acc _; simp
  | cons c cs ih =>
      intro acc hnd
      have hc : c ∉ cs := (List.nodup_cons.mp hnd).1
      have hcs : cs.Nodup := (List.nodup_cons.mp hnd).2
      by_cases hmem : c ∈ keysOf acc
      · have hstep : (if c ∈ keysOf acc then acc
            else dictInsert acc c (PredEntry.str "all")) = acc := if_pos hmem
        have hfilter : (c :: cs).filter (fun x => x ∉ keysOf acc)
            = cs.filter (fun x => x ∉ keysOf acc) := by
          simp [List.filter_cons, hmem]
        rw [List.foldl_cons, hstep, ih acc hcs, hfilter]
      · have hstep : (if c ∈ keysOf acc then acc
            else dictInsert acc c (PredEntry.str "all"))
            = acc ++ [(c, PredEntry.str "all")] := by
          rw [if_neg hmem]
          exact dictInsert_of_not_mem acc c (PredEntry.str "all") hmem
        have hkeys : keysOf (acc ++ [(c, PredEntry.str "all")])
            = keysOf acc ++ [c] := by simp [keysOf_append, keysOf]
        have hcong : cs.filter
              (fun x => x ∉ keysOf (acc ++ [(c, PredEntry.str "all")]))
            = cs.filter (fun x => x ∉ keysOf acc) := by
          apply List.filter_congr
          intro x hx
          have hxc : x ≠ c := fun hxc => hc (hxc ▸ hx)
          simp [hkeys, hxc]
        have hfilter : (c :: cs).filter (fun x => x ∉ keysOf acc)
            = c :: cs.filter (fun x => x ∉ keysOf acc) := by
          simp [List.filter_cons, hmem]
        rw [List.foldl_cons, hstep,
          ih (acc ++ [(c, PredEntry.str "all")]) hcs, hcong, hfilter]
        simp

/-- C2: for a dict-shaped predictor spec whose keys name dataset columns and
whose values all pass the string/list validation, `check_predictors_fit`
returns the caller's entries followed by an `"all"` entry for every omitted
column: every column ends up with an entry, caller-supplied entries are kept,
and omitted columns map to the literal `"all"`. -/
theorem check_predictors_fit_dict_autocompletes
    (d : List (String × PredEntry)) (cols : List String)
    (hc : cols.Nodup)
    (hk : ∀ k ∈ keysOf d, k ∈ cols)
    (hv : ∀ p ∈ d, predEntryErr cols p.1 p.2 = Option.none) :
    check_predictors_fit (.dict d) cols = .val (autoFilled d cols)
    ∧ (∀ c ∈ cols, c ∈ keysOf (autoFilled d cols))
    ∧ (∀ p ∈ d, p ∈ autoFilled d cols)
    ∧ (∀ c ∈ cols, c ∉ keysOf d →
        lookupD (autoFilled d cols) c = some (PredEntry.str "all")) := by
  have hkeysAuto : keysOf (autoFilled d cols)
      = keysOf d ++ cols.filter (fun c => c ∉ keysOf d) := by
    rw [autoFilled, keysOf_append, keysOf_map_pair]
  refine ⟨?_, ?_, ?_, ?_⟩
  · have hknil : (keysOf d).filter (fun k => k ∉ cols) = [] := by
      rw [List.filter_eq_nil_iff]
      intro k hkm
      simpa using hk k hkm
    have hfind : d.findSome? (fun p => predEntryErr cols p.1 p.2)
        = Option.none :=
      List.findSome?_eq_none_iff.mpr hv
    show (if (keysOf d).filter (fun k => k ∉ cols) ≠ [] then
        PyRes.valueError "Keys of strategies and column names must match."
      else
        match d.findSome? (fun p => predEntryErr cols p.1 p.2) with
        | some m => PyRes.valueError m
        | Option.none =>
            PyRes.val (cols.foldl
              (fun acc c =>
                if c ∈ keysOf acc then acc
                else dictInsert acc c (PredEntry.str "all"))
              d)) = .val (autoFilled d cols)
    rw [if_neg (fun h => h hknil), hfind]
    rw [fold_autofill cols d hc]
    rfl
  · intro c hcm
    rw [hkeysAuto]
    by_cases hcd : c ∈ keysOf d
    · exact List.mem_append_left _ hcd
    · exact List.mem_append_right _ (by simp [List.mem_filter, hcm, hcd])
  · intro p hp
    exact List.mem_append_left _ hp
  · intro c hcm hcd
    unfold autoFilled
    rw [lookupD_append_right _ _ _ hcd]
    exact lookupD_map_const _ c _ (by simp [List.mem_filter, hcm, hcd])

/-- C2 witness: the spec's concrete scenario — predictor dict
`{"A": ["B"]}` over columns `{A, B, C}` resolves to
`{A: ["B"], B: "all", C: "all"}`. -/
theorem check_predictors_fit_dict_autocompletes_witness :
    check_predictors_fit (.dict [("A", PredEntry.list ["B"])]) ["A", "B", "C"]
      = .val [("A", PredEntry.list ["B"]), ("B", PredEntry.str "all"),
          ("C", PredEntry.str "all")] := by
  have h := check_predictors_fit_dict_autocompletes
    [("A", PredEntry.list ["B"])] ["A", "B", "C"]
    (by decide) (by decide) (by decide)
  rw [h.1]
  rfl

/-! ## Frame and column-group lemmas -/

theorem mapFst_filter_fst {β : Type} (l : List (String × β)) (p : String → Bool) :
    (l.filter (fun q => p q.1)).map Prod.fst = (l.map Prod.fst).filter p := by
  induction l with
  | nil => rfl
  | cons a l ih =>
      by_cases hp : p a.1
      · simp [List.filter_cons, hp, ih]
      · simp [List.filter_cons, hp, ih]

theorem colNames_dropCol (f : Frame) (c : String) :
    (f.dropCol c).colNames = f.colNames.filter (fun x => x ≠ c) := by
  unfold Frame.dropCol Frame.colNames
  exact mapFst_filter_fst f.cols (fun x => x ≠ c)

theorem mem_selectCols_colNames (f : Frame) (ns : List String) (a : String) :
    a ∈ (f.selectCols ns).colNames ↔ a ∈ ns ∧ a ∈ f.colNames := by
  unfold Frame.selectCols Frame.colNames
  constructor
  · intro h
    rcases List.mem_map.mp h with ⟨q, hq, hqa⟩
    rcases List.mem_flatMap.mp hq with ⟨n, hn, hqf⟩
    have hq1 : q.1 = n := by simpa using List.of_mem_filter hqf
    have hqcols : q ∈ f.cols := List.mem_of_mem_filter hqf
    constructor
    · rw [← hqa, hq1]; exact hn
    · rw [← hqa]; exact List.mem_map_of_mem Prod.fst hqcols
  · rintro ⟨han, haf⟩
    rcases List.mem_map.mp haf with ⟨q, hq, hqa⟩
    refine List.mem_map.mpr ⟨q, ?_, hqa⟩
    refine List.mem_flatMap.mpr ⟨a, han, ?_⟩
    exact List.mem_filter.mpr ⟨hq, by simpa using hqa⟩

theorem flatMap_filter_keys {β : Type} :
    ∀ (l : List (String × β)), (l.map Prod.fst).Nodup → ∀ p : String → Bool,
      ((l.map Prod.fst).filter p).flatMap (fun n => l.filter (fun q => q.1 = n))
        = l.filter (fun q => p q.1) := by
  intro l
  induction l with
  | nil => intro _ p; rfl
  | cons a l ih =>
      intro hnd p
      have ha : a.1 ∉ l.map Prod.fst := (List.nodup_cons.mp hnd).1
      have hl : (l.map Prod.fst).Nodup := (List.nodup_cons.mp hnd).2
      have hself : (a :: l).filter (fun q => q.1 = a.1)
          = a :: l.filter (fun q => q.1 = a.1) := by
        simp [List.filter_cons]
      have hnil : l.filter (fun q => q.1 = a.1) = [] := by
        rw [List.filter_eq_nil_iff]
        intro q hq
        simp only [decide_eq_true_eq]
        intro hq1
        exact ha (hq1 ▸ List.mem_map_of_mem Prod.fst hq)
      have hcong : ((l.map Prod.fst).filter p).flatMap
            (fun n => (a :: l).filter (fun q => q.1 = n))
          = ((l.map Prod.fst).filter p).flatMap
            (fun n => l.filter (fun q => q.1 = n)) := by
        apply List.flatMap_congr
        intro n hn
        have hna : ¬(a.1 = n) := by
          intro hna
          exact ha (hna ▸ List.mem_of_mem_filter hn)
        simp [List.filter_cons, hna]
      by_cases hp : p a.1
      · calc ((a :: l).map Prod.fst).filter p |>.flatMap
              (fun n => (a :: l).filter (fun q => q.1 = n))
        _ = (a.1 :: (l.map Prod.fst).filter p).flatMap
              (fun n => (a :: l).filter (fun q => q.1 = n)) := by
              simp [List.filter_cons, hp]
        _ = (a :: l).filter (fun q => q.1 = a.1)
              ++ ((l.map Prod.fst).filter p).flatMap
                (fun n => (a :: l).filter (fun q => q.1 = n)) := by
              simp [List.flatMap_cons]
        _ = (a :: l.filter (fun q => q.1 = a.1))
              ++ ((l.map Prod.fst).filter p).flatMap
                (fun n => l.filter (fun q => q.1 = n)) := by
              rw [hself, hcong]
        _ = a :: l.filter (fun q => p q.1) := by
              rw [hnil, ih hl p]
              rfl
        _ = (a :: l).filter (fun q => p q.1) := by
              simp [List.filter_cons, hp]
      · calc ((a :: l).map Prod.fst).filter p |>.flatMap
              (fun n => (a :: l).filter (fun q => q.1 = n))
        _ = ((l.map Prod.fst).filter p).flatMap
              (fun n => (a :: l).filter (fun q => q.1 = n)) := by
              simp [List.filter_cons, hp]
        _ = ((l.map Prod.fst).filter p).flatMap
              (fun n => l.filter (fun q => q.1 = n)) := hcong
        _ = l.filter (fun q => p q.1) := ih hl p
        _ = (a :: l).filter (fun q => p q.1) := by
              simp [List.filter_cons, hp]

theorem selectCols_filter (f : Frame) (p : String → Bool)
    (h : f.colNames.Nodup) :
    (f.selectCols (f.colNames.filter p)).cols
      = f.cols.filter (fun q => p q.1) :=
  flatMap_filter_keys f.cols h p

theorem colNames_selectCols_filter (f : Frame) (p : String → Bool)
    (h : f.colNames.Nodup) :
    (f.selectCols (f.colNames.filter p)).colNames = f.colNames.filter p := by
  show ((f.selectCols (f.colNames.filter p)).cols).map Prod.fst
    = f.colNames.filter p
  rw [selectCols_filter f p h, mapFst_filter_fst]
  rfl

theorem flatten_nodup_same_key :
    ∀ (d : List (String × List String)),
      ((d.map Prod.snd).flatten).Nodup →
      ∀ p ∈ d, ∀ q ∈ d, ∀ x, x ∈ p.2 → x ∈ q.2 → p = q := by
  intro d
  induction d with
  | nil => intro _ p hp; simp at hp
  | cons a d ih =>
      intro h p hp q hq x hxp hxq
      have hflat : (( (a :: d).map Prod.snd).flatten)
          = a.2 ++ ((d.map Prod.snd).flatten) := rfl
      rw [hflat] at h
      have hparts := List.nodup_append.mp h
      have hdisj : ∀ y ∈ a.2, y ∉ ((d.map Prod.snd).flatten) :=
        fun y hy => hparts.2.2 hy
      rcases List.mem_cons.mp hp with hpa | hpd
      · rcases List.mem_cons.mp hq with hqa | hqd
        · rw [hpa, hqa]
        · exfalso
          refine hdisj x (hpa ▸ hxp) ?_
          exact List.mem_flatten.mpr ⟨q.2, List.mem_map_of_mem Prod.snd hqd, hxq⟩
      · rcases List.mem_cons.mp hq with hqa | hqd
        · exfalso
          refine hdisj x (hqa ▸ hxq) ?_
          exact List.mem_flatten.mpr ⟨p.2, List.mem_map_of_mem Prod.snd hpd, hxp⟩
        · exact ih hparts.2.1 p hpd q hqd x hxp hxq

/-! ## prep_fit_dataframe field lemmas -/

theorem prep_data_num (df : DFrame) :
    (prep_fit_dataframe df).data_num = selectDtypes df .num := rfl

theorem prep_cols_num (df : DFrame) :
    (prep_fit_dataframe df).cols_num = (selectDtypes df .num).colNames := rfl

theorem prep_data_time (df : DFrame) :
    (prep_fit_dataframe df).data_time = selectDtypes df .time := rfl

theorem prep_cols_time (df : DFrame) :
    (prep_fit_dataframe df).cols_time = (selectDtypes df .time).colNames := rfl

theorem prep_orig_dum (df : DFrame) :
    (prep_fit_dataframe df).orig_dum = (selectDtypes df .obj).colNames := rfl

theorem prep_dum_dict (df : DFrame) :
    (prep_fit_dataframe df).dum_dict
      = (selectDtypes df .obj).cols.map
          (fun p => (p.1, (getDummies df.idx p.1 p.2).colNames)) := rfl

theorem prep_data_dum (df : DFrame) :
    (prep_fit_dataframe df).data_dum
      = if (selectDtypes df .obj).cols = [] then Frame.empty
        else
          { idx := df.idx
            cols := ((selectDtypes df .obj).cols.map
              (fun p => (getDummies df.idx p.1 p.2).cols)).flatten } := rfl

theorem prep_cols_dum (df : DFrame) :
    (prep_fit_dataframe df).cols_dum
      = (prep_fit_dataframe df).data_dum.colNames := rfl

theorem prep_X_idx (df : DFrame) :
    (prep_fit_dataframe df).X_idx = df.idx := rfl

theorem mapFst_map_pair {β γ : Type} (l : List (String × β))
    (g : String × β → γ) :
    (l.map (fun p => (p.1, g p))).map Prod.fst = l.map Prod.fst := by
  induction l with
  | nil => rfl
  | cons a l ih => simp only [List.map_cons, ih]

theorem prep_keys_dum_dict (df : DFrame) :
    keysOf (prep_fit_dataframe df).dum_dict = (prep_fit_dataframe df).orig_dum := by
  rw [prep_dum_dict, prep_orig_dum]
  unfold keysOf Frame.colNames
  exact mapFst_map_pair _ _

theorem prep_cols_dum_flatten (df : DFrame) :
    (prep_fit_dataframe df).cols_dum
      = (((prep_fit_dataframe df).dum_dict).map Prod.snd).flatten := by
  rw [prep_cols_dum, prep_data_dum, prep_dum_dict]
  by_cases hobj : (selectDtypes df .obj).cols = []
  · rw [if_pos hobj, hobj]
    rfl
  · rw [if_neg hobj]
    show (((selectDtypes df .obj).cols.map
        (fun p => (getDummies df.idx p.1 p.2).cols)).flatten).map Prod.fst = _
    rw [List.map_flatten, List.map_map, List.map_map]
    rfl

theorem mem_selectDtypes_colNames (df : DFrame) (t : Dtype) (a : String) :
    a ∈ (selectDtypes df t).colNames
      ↔ ∃ c ∈ df.cols, c.dtype = t ∧ c.name = a := by
  unfold selectDtypes Frame.colNames
  constructor
  · intro h
    rcases List.mem_map.mp h with ⟨q, hq, hqa⟩
    rcases List.mem_map.mp hq with ⟨c, hc, hcq⟩
    refine ⟨c, List.mem_of_mem_filter hc, ?_, ?_⟩
    · simpa using List.of_mem_filter hc
    · rw [← hqa, ← hcq]
  · rintro ⟨c, hc, hct, hca⟩
    refine List.mem_map.mpr ⟨(c.name, c.values), ?_, hca⟩
    refine List.mem_map.mpr ⟨c, ?_, rfl⟩
    exact List.mem_filter.mpr ⟨hc, by simpa using hct⟩

theorem selectDtypes_subset (df : DFrame) (t : Dtype) (a : String)
    (h : a ∈ (selectDtypes df t).colNames) : a ∈ df.colNames := by
  rcases (mem_selectDtypes_colNames df t a).mp h with ⟨c, hc, _, hca⟩
  exact hca ▸ List.mem_map_of_mem Col.name hc

theorem selectDtypes_disjoint (df : DFrame) (hnd : df.colNames.Nodup)
    (t₁ t₂ : Dtype) (hne : t₁ ≠ t₂) (a : String)
    (h₁ : a ∈ (selectDtypes df t₁).colNames) :
    a ∉ (selectDtypes df t₂).colNames := by
  intro h₂
  rcases (mem_selectDtypes_colNames df t₁ a).mp h₁ with ⟨c₁, hc₁, ht₁, ha₁⟩
  rcases (mem_selectDtypes_colNames df t₂ a).mp h₂ with ⟨c₂, hc₂, ht₂, ha₂⟩
  have : c₁ = c₂ :=
    List.inj_on_of_nodup_map hnd hc₁ hc₂ (by rw [ha₁, ha₂])
  rw [this, ht₂] at ht₁
  exact hne ht₁.symm

/-! ## dumsOf lemmas -/

theorem dumsOf_eq_nil (st : FitState) (c : String)
    (h : c ∉ keysOf st.dum_dict) : dumsOf st c = [] := by
  unfold dumsOf
  rw [lookupD_eq_none st.dum_dict c h]
  rfl

theorem dumsOf_mem (st : FitState) (c a : String) (ha : a ∈ dumsOf st c) :
    ∃ p ∈ st.dum_dict, p.1 = c ∧ a ∈ p.2 := by
  unfold dumsOf at ha
  cases hl : lookupD st.dum_dict c with
  | none => rw [hl] at ha; simp at ha
  | some ls =>
      rw [hl] at ha
      rcases lookupD_mem st.dum_dict c ls hl with ⟨p, hp, hpc, hpl⟩
      exact ⟨p, hp, hpc, by rw [hpl]; simpa using ha⟩

theorem dumsOf_subset_cols_dum (df : DFrame) (c a : String)
    (ha : a ∈ dumsOf (prep_fit_dataframe df) c) :
    a ∈ (prep_fit_dataframe df).cols_dum := by
  rcases dumsOf_mem _ c a ha with ⟨p, hp, _, hpa⟩
  rw [prep_cols_dum_flatten]
  exact List.mem_flatten.mpr ⟨p.2, List.mem_map_of_mem Prod.snd hp, hpa⟩

/-! ## SetListOf and block lemmas -/

theorem setListOf_mem {out a b : List String} (h : SetListOf out a b)
    (x : String) : x ∈ out ↔ x ∈ a ∧ x ∈ b := by
  unfold SetListOf at h
  rw [h.mem_iff]
  simp [List.mem_filter, List.mem_dedup]

theorem mem_numCandidates (df : DFrame) (c a : String) :
    a ∈ (numCandidates (prep_fit_dataframe df) c).colNames
      ↔ a ∈ (prep_fit_dataframe df).cols_num
        ∧ (c ∈ (prep_fit_dataframe df).cols_num → a ≠ c) := by
  unfold numCandidates
  by_cases hc : c ∈ (prep_fit_dataframe df).cols_num
  · rw [if_pos hc]
    have : ((prep_fit_dataframe df).data_num.dropCol c).colNames
        = (prep_fit_dataframe df).cols_num.filter (fun x => x ≠ c) :=
      colNames_dropCol _ c
    rw [this, List.mem_filter]
    constructor
    · rintro ⟨h1, h2⟩
      exact ⟨h1, fun _ => by simpa using h2⟩
    · rintro ⟨h1, h2⟩
      exact ⟨h1, by simpa using h2 hc⟩
  · rw [if_neg hc]
    constructor
    · intro h1
      exact ⟨h1, fun hcc => absurd hcc hc⟩
    · rintro ⟨h1, _⟩
      exact h1

theorem numCandidates_idx (df : DFrame) (c : String) :
    (numCandidates (prep_fit_dataframe df) c).idx = df.idx := by
  unfold numCandidates
  by_cases hc : c ∈ (prep_fit_dataframe df).cols_num
  · rw [if_pos hc]; rfl
  · rw [if_neg hc]; rfl

theorem numCandidates_sublist (df : DFrame) (c : String) :
    (numCandidates (prep_fit_dataframe df) c).colNames.Sublist
      (prep_fit_dataframe df).cols_num := by
  unfold numCandidates
  by_cases hc : c ∈ (prep_fit_dataframe df).cols_num
  · rw [if_pos hc, colNames_dropCol]
    exact List.filter_sublist _
  · rw [if_neg hc]
    exact List.Sublist.refl _

theorem prep_data_dum_idx (df : DFrame)
    (h : (prep_fit_dataframe df).cols_dum ≠ []) :
    (prep_fit_dataframe df).data_dum.idx = df.idx := by
  by_cases hobj : (selectDtypes df .obj).cols = []
  · exfalso
    apply h
    rw [prep_cols_dum, prep_data_dum, if_pos hobj]
    rfl
  · rw [prep_data_dum, if_neg hobj]

theorem prep_cols_dum_nodup_data (df : DFrame) :
    (prep_fit_dataframe df).data_dum.colNames
      = (prep_fit_dataframe df).cols_dum := rfl

/-- The dummy block of `_use_all_cols`, reduced. -/
theorem use_all_b2_eq (st : FitState) (c : String) :
    (use_all_cols st c).2.1
      = if c ∈ st.orig_dum then
          st.data_dum.selectCols (st.data_dum.colNames.filter (fun k =>
            k ∈ ((st.dum_dict.filter (fun p => p.1 ≠ c)).map Prod.snd).flatten))
        else st.data_dum := rfl

/-- The dummy block of `_use_iter_cols`, reduced. -/
theorem use_iter_b2_eq (st : FitState) (c : String) (preds nsel tsel : List String) :
    (use_iter_cols st c preds nsel tsel).2.1
      = st.data_dum.selectCols (st.data_dum.colNames.filter (fun k =>
          k ∈ (if c ∈ st.orig_dum then
              (st.dum_dict.filter (fun p => p.1 ≠ c ∧ p.1 ∈ preds)).map Prod.snd
            else
              (st.dum_dict.filter (fun p => p.1 ∈ preds)).map Prod.snd).flatten)) := rfl

theorem blocksFor_b1_mem (df : DFrame) (c : String) (entry : PredEntry)
    (nsel tsel : List String) (a : String) (hentry : entry ≠ .other)
    (h : a ∈ (blocksFor (prep_fit_dataframe df) c entry nsel tsel).1.colNames) :
    a ∈ (numCandidates (prep_fit_dataframe df) c).colNames := by
  cases entry with
  | other => exact absurd rfl hentry
  | str s =>
      by_cases hs : s = "all"
      · subst hs
        simpa [blocksFor, use_all_cols] using h
      · rw [show (blocksFor (prep_fit_dataframe df) c (.str s) nsel tsel).1
            = (use_iter_cols (prep_fit_dataframe df) c [s] nsel tsel).1 by
              simp [blocksFor, hs]] at h
        exact ((mem_selectCols_colNames _ nsel a).mp h).2
  | list l =>
      rw [show (blocksFor (prep_fit_dataframe df) c (.list l) nsel tsel).1
          = (use_iter_cols (prep_fit_dataframe df) c l nsel tsel).1 from rfl] at h
      exact ((mem_selectCols_colNames _ nsel a).mp h).2

theorem blocksFor_b2_mem (df : DFrame) (c : String) (entry : PredEntry)
    (nsel tsel : List String) (a : String) (hentry : entry ≠ .other)
    (h : a ∈ (blocksFor (prep_fit_dataframe df) c entry nsel tsel).2.1.colNames) :
    a ∈ (prep_fit_dataframe df).cols_dum := by
  set st := prep_fit_dataframe df with hst
  cases entry with
  | other => exact absurd rfl hentry
  | str s =>
      by_cases hs : s = "all"
      · subst hs
        rw [show (blocksFor st c (.str "all") nsel tsel).2.1
            = (use_all_cols st c).2.1 from rfl, use_all_b2_eq] at h
        by_cases hc : c ∈ st.orig_dum
        · rw [if_pos hc] at h
          exact ((mem_selectCols_colNames _ _ a).mp h).2
        · rw [if_neg hc] at h
          exact h
      · rw [show (blocksFor st c (.str s) nsel tsel).2.1
            = (use_iter_cols st c [s] nsel tsel).2.1 by
              simp [blocksFor, hs], use_iter_b2_eq] at h
        exact ((mem_selectCols_colNames _ _ a).mp h).2
  | list l =>
      rw [show (blocksFor st c (.list l) nsel tsel).2.1
          = (use_iter_cols st c l nsel tsel).2.1 from rfl, use_iter_b2_eq] at h
      exact ((mem_selectCols_colNames _ _ a).mp h).2

theorem blocksFor_b3_mem (df : DFrame) (c : String) (entry : PredEntry)
    (nsel tsel : List String) (a : String) (hentry : entry ≠ .other)
    (h : a ∈ (blocksFor (prep_fit_dataframe df) c entry nsel tsel).2.2.colNames) :
    a ∈ (prep_fit_dataframe df).cols_time := by
  set st := prep_fit_dataframe df with hst
  cases entry with
  | other => exact absurd rfl hentry
  | str s =>
      by_cases hs : s = "all"
      · subst hs
        exact h
      · rw [show (blocksFor st c (.str s) nsel tsel).2.2
            = (use_iter_cols st c [s] nsel tsel).2.2 by
              simp [blocksFor, hs]] at h
        exact ((mem_selectCols_colNames _ _ a).mp h).2
  | list l =>
      rw [show (blocksFor st c (.list l) nsel tsel).2.2
          = (use_iter_cols st c l nsel tsel).2.2 from rfl] at h
      exact ((mem_selectCols_colNames _ _ a).mp h).2

theorem blocksFor_b2_excl (df : DFrame) (c : String) (entry : PredEntry)
    (nsel tsel : List String) (a : String) (hentry : entry ≠ .other)
    (hc : c ∈ (prep_fit_dataframe df).orig_dum)
    (h : a ∈ (blocksFor (prep_fit_dataframe df) c entry nsel tsel).2.1.colNames) :
    ∃ q ∈ (prep_fit_dataframe df).dum_dict, q.1 ≠ c ∧ a ∈ q.2 := by
  set st := prep_fit_dataframe df with hst
  have main : ∀ (P : String × List String → Bool),
      a ∈ (st.data_dum.selectCols (st.data_dum.colNames.filter (fun k =>
        k ∈ ((st.dum_dict.filter P).map Prod.snd).flatten))).colNames →
      (∀ q ∈ st.dum_dict, P q → q.1 ≠ c) →
      ∃ q ∈ st.dum_dict, q.1 ≠ c ∧ a ∈ q.2 := by
    intro P hmem hP
    have h1 := ((mem_selectCols_colNames _ _ a).mp hmem).1
    have h2 := (List.mem_filter.mp h1).2
    have h3 : a ∈ ((st.dum_dict.filter P).map Prod.snd).flatten := by
      simpa using h2
    rcases List.mem_flatten.mp h3 with ⟨ls, hls, hals⟩
    rcases List.mem_map.mp hls with ⟨q, hq, hqls⟩
    have hqd : q ∈ st.dum_dict := List.mem_of_mem_filter hq
    have hqP : P q := List.of_mem_filter hq
    exact ⟨q, hqd, hP q hqd hqP, by rw [hqls]; exact hals⟩
  cases entry with
  | other => exact absurd rfl hentry
  | str s =>
      by_cases hs : s = "all"
      · subst hs
        rw [show (blocksFor st c (.str "all") nsel tsel).2.1
            = (use_all_cols st c).2.1 from rfl, use_all_b2_eq, if_pos hc] at h
        refine main (fun p => p.1 ≠ c) h ?_
        intro q _ hq
        simpa using hq
      · rw [show (blocksFor st c (.str s) nsel tsel).2.1
            = (use_iter_cols st c [s] nsel tsel).2.1 by
              simp [blocksFor, hs], use_iter_b2_eq, if_pos hc] at h
        refine main (fun p => p.1 ≠ c ∧ p.1 ∈ [s]) h ?_
        intro q _ hq
        exact (by simpa using hq : q.1 ≠ c ∧ q.1 ∈ [s]).1
  | list l =>
      rw [show (blocksFor st c (.list l) nsel tsel).2.1
          = (use_iter_cols st c l nsel tsel).2.1 from rfl,
        use_iter_b2_eq, if_pos hc] at h
      refine main (fun p => p.1 ≠ c ∧ p.1 ∈ l) h ?_
      intro q _ hq
      exact (by simpa using hq : q.1 ≠ c ∧ q.1 ∈ l).1

theorem blocksFor_b1_idx (df : DFrame) (c : String) (entry : PredEntry)
    (nsel tsel : List String) (hentry : entry ≠ .other) :
    (blocksFor (prep_fit_dataframe df) c entry nsel tsel).1.idx = df.idx := by
  cases entry with
  | other => exact absurd rfl hentry
  | str s =>
      by_cases hs : s = "all"
      · subst hs
        exact numCandidates_idx df c
      · rw [show (blocksFor (prep_fit_dataframe df) c (.str s) nsel tsel).1
            = (use_iter_cols (prep_fit_dataframe df) c [s] nsel tsel).1 by
              simp [blocksFor, hs]]
        exact numCandidates_idx df c
  | list l => exact numCandidates_idx df c

theorem blocksFor_b3_idx (df : DFrame) (c : String) (entry : PredEntry)
    (nsel tsel : List String) (hentry : entry ≠ .other) :
    (blocksFor (prep_fit_dataframe df) c entry nsel tsel).2.2.idx = df.idx := by
  cases entry with
  | other => exact absurd rfl hentry
  | str s =>
      by_cases hs : s = "all"
      · subst hs
        rfl
      · rw [show (blocksFor (prep_fit_dataframe df) c (.str s) nsel tsel).2.2
            = (use_iter_cols (prep_fit_dataframe df) c [s] nsel tsel).2.2 by
              simp [blocksFor, hs]]
        rfl
  | list l => rfl

theorem blocksFor_b2_idx (df : DFrame) (c : String) (entry : PredEntry)
    (nsel tsel : List String) (hentry : entry ≠ .other)
    (hne : (blocksFor (prep_fit_dataframe df) c entry nsel tsel).2.1.colNames ≠ []) :
    (blocksFor (prep_fit_dataframe df) c entry nsel tsel).2.1.idx = df.idx := by
  set st := prep_fit_dataframe df with hst
  have hdum : st.cols_dum ≠ [] := by
    rcases List.exists_mem_of_ne_nil _ hne with ⟨a, ha⟩
    intro hnil
    have := blocksFor_b2_mem df c entry nsel tsel a hentry ha
    rw [hnil] at this
    simp at this
  have hidx : st.data_dum.idx = df.idx := prep_data_dum_idx df hdum
  cases entry with
  | other => exact absurd rfl hentry
  | str s =>
      by_cases hs : s = "all"
      · subst hs
        rw [show (blocksFor st c (.str "all") nsel tsel).2.1
            = (use_all_cols st c).2.1 from rfl, use_all_b2_eq]
        by_cases hc : c ∈ st.orig_dum
        · rw [if_pos hc]; exact hidx
        · rw [if_neg hc]; exact hidx
      · rw [show (blocksFor st c (.str s) nsel tsel).2.1
            = (use_iter_cols st c [s] nsel tsel).2.1 by
              simp [blocksFor, hs], use_iter_b2_eq]
        exact hidx
  | list l =>
      rw [show (blocksFor st c (.list l) nsel tsel).2.1
          = (use_iter_cols st c l nsel tsel).2.1 from rfl, use_iter_b2_eq]
      exact hidx

theorem size_pos_iff (fr : Frame) (I : List Nat) (hidx : fr.idx = I) :
    0 < fr.size ↔ (fr.colNames ≠ [] ∧ I ≠ []) := by
  unfold Frame.size
  rw [hidx]
  rw [Nat.pos_iff_ne_zero, Nat.mul_ne_zero_iff]
  constructor
  · rintro ⟨h1, h2⟩
    constructor
    · intro hnil
      apply h1
      have : fr.colNames.length = 0 := by rw [hnil]; rfl
      unfold Frame.colNames at this
      rw [List.length_map] at this
      exact this
    · intro hnil
      apply h2
      rw [hnil]
      rfl
  · rintro ⟨h1, h2⟩
    constructor
    · intro hz
      apply h1
      have : fr.colNames.length = 0 := by
        unfold Frame.colNames
        rw [List.length_map, hz]
      exact List.length_eq_zero.mp this
    · intro hz
      exact h2 (List.length_eq_zero.mp hz)

theorem size_zero_of_colNames_nil (fr : Frame) (h : fr.colNames = []) :
    fr.size = 0 := by
  unfold Frame.size
  have : fr.cols.length = 0 := by
    have h2 : fr.colNames.length = 0 := by rw [h]; rfl
    unfold Frame.colNames at h2
    rw [List.length_map] at h2
    exact h2
  rw [this]
  exact Nat.zero_mul _

theorem filter_size_flatten (l : List Frame)
    (hiff : ∀ fr ∈ l, (0 < fr.size ↔ fr.colNames ≠ [])) :
    ((l.filter (fun p => 0 < p.size)).map Frame.colNames).flatten
      = (l.map Frame.colNames).flatten := by
  induction l with
  | nil => rfl
  | cons fr l ih =>
      have hfr := hiff fr (List.mem_cons_self fr l)
      have hl := fun g hg => hiff g (List.mem_cons_of_mem fr hg)
      by_cases hnil : fr.colNames = []
      · have hnotpos : ¬(0 < fr.size) := by
          rw [hfr]
          simp [hnil]
        rw [List.filter_cons, if_neg (by simpa using hnotpos)]
        rw [ih hl]
        show _ = fr.colNames ++ (l.map Frame.colNames).flatten
        rw [hnil]
        rfl
      · have hpos : 0 < fr.size := hfr.mpr hnil
        rw [List.filter_cons, if_pos (by simpa using hpos)]
        show fr.colNames ++ _ = fr.colNames ++ _
        rw [ih hl]

theorem frames_flatten_names (frames : List Frame) :
    ((frames.map Frame.cols).flatten).map Prod.fst
      = (frames.map Frame.colNames).flatten := by
  rw [List.map_flatten, List.map_map]
  rfl

theorem prep_body_val {n d t : Frame} {c0 : String} {mi : List Cell}
    {x : Frame} {y : List Cell}
    (h : (if n.colNames = [] ∧ d.colNames = [] ∧ t.colNames = [] then
        PyRes.valueError (noPredictorErr c0)
      else
        match ([n, d, t].filter (fun p => 0 < p.size)) with
        | [] => PyRes.valueError concatEmptyErr
        | p :: ps =>
            PyRes.val (Frame.mk p.idx (((p :: ps).map Frame.cols).flatten), mi))
      = PyRes.val (x, y)) :
    y = mi
    ∧ x.colNames
        = (([n, d, t].filter (fun p => 0 < p.size)).map Frame.colNames).flatten
    ∧ [n, d, t].filter (fun p => 0 < p.size) ≠ [] := by
  by_cases h0 : n.colNames = [] ∧ d.colNames = [] ∧ t.colNames = []
  · rw [if_pos h0] at h
    exact absurd h (by simp)
  · rw [if_neg h0] at h
    cases hf : [n, d, t].filter (fun p => 0 < p.size) with
    | nil =>
        rw [hf] at h
        exact absurd h (by simp)
    | cons p ps =>
        rw [hf] at h
        simp only [PyRes.val.injEq, Prod.mk.injEq] at h
        refine ⟨h.2.symm, ?_, by simp⟩
        rw [← h.1]
        show (((p :: ps).map Frame.cols).flatten).map Prod.fst = _
        rw [frames_flatten_names]

theorem prep_body_error {n d t : Frame} {c0 : String} {mi : List Cell} :
    (∃ m, (if n.colNames = [] ∧ d.colNames = [] ∧ t.colNames = [] then
        PyRes.valueError (noPredictorErr c0)
      else
        match ([n, d, t].filter (fun p => 0 < p.size)) with
        | [] => PyRes.valueError concatEmptyErr
        | p :: ps =>
            PyRes.val (Frame.mk p.idx (((p :: ps).map Frame.cols).flatten), mi))
      = PyRes.valueError m)
    ↔ (n.size = 0 ∧ d.size = 0 ∧ t.size = 0) := by
  constructor
  · rintro ⟨m, hm⟩
    by_cases h0 : n.colNames = [] ∧ d.colNames = [] ∧ t.colNames = []
    · exact ⟨size_zero_of_colNames_nil n h0.1,
        size_zero_of_colNames_nil d h0.2.1,
        size_zero_of_colNames_nil t h0.2.2⟩
    · rw [if_neg h0] at hm
      cases hf : [n, d, t].filter (fun p => 0 < p.size) with
      | nil =>
          have hall := List.filter_eq_nil_iff.mp hf
          have hn : ¬(0 < n.size) := by simpa using hall n (by simp)
          have hd : ¬(0 < d.size) := by simpa using hall d (by simp)
          have ht : ¬(0 < t.size) := by simpa using hall t (by simp)
          omega
      | cons p ps =>
          rw [hf] at hm
          exact absurd hm (by simp)
  · rintro ⟨hn, hd, ht⟩
    have hf : [n, d, t].filter (fun p => 0 < p.size) = [] := by
      rw [List.filter_eq_nil_iff]
      intro fr hfr
      rcases List.mem_cons.mp hfr with h1 | h1
      · subst h1; simp [hn]
      rcases List.mem_cons.mp h1 with h2 | h2
      · subst h2; simp [hd]
      rcases List.mem_cons.mp h2 with h3 | h3
      · subst h3; simp [ht]
      · simp at h3
    by_cases h0 : n.colNames = [] ∧ d.colNames = [] ∧ t.colNames = []
    · exact ⟨noPredictorErr c0, by rw [if_pos h0]⟩
    · refine ⟨concatEmptyErr, ?_⟩
      rw [if_neg h0, hf]

theorem prep_val_spec (st : FitState) (c : String) (entry : PredEntry)
    (nsel tsel : List String) (x : Frame) (y : List Cell)
    (hentry : entry ≠ .other)
    (hsucc : prep_predictor_cols st c entry nsel tsel = .val (x, y)) :
    y = st.data_mi.getCol c
    ∧ x.colNames
        = (([(blocksFor st c entry nsel tsel).1,
             (blocksFor st c entry nsel tsel).2.1,
             (blocksFor st c entry nsel tsel).2.2].filter
            (fun p => 0 < p.size)).map Frame.colNames).flatten
    ∧ [(blocksFor st c entry nsel tsel).1,
       (blocksFor st c entry nsel tsel).2.1,
       (blocksFor st c entry nsel tsel).2.2].filter
          (fun p => 0 < p.size) ≠ [] := by
  cases entry with
  | other => exact absurd rfl hentry
  | str s => exact prep_body_val hsucc
  | list l => exact prep_body_val hsucc

theorem prep_error_iff_st (st : FitState) (c : String) (entry : PredEntry)
    (nsel tsel : List String) (hentry : entry ≠ .other) :
    (∃ m, prep_predictor_cols st c entry nsel tsel = .valueError m)
      ↔ ((blocksFor st c entry nsel tsel).1.size = 0
        ∧ (blocksFor st c entry nsel tsel).2.1.size = 0
        ∧ (blocksFor st c entry nsel tsel).2.2.size = 0) := by
  cases entry with
  | other => exact absurd rfl hentry
  | str s => exact prep_body_error
  | list l => exact prep_body_error

theorem prep_val_mem (st : FitState) (c : String) (entry : PredEntry)
    (nsel tsel : List String) (x : Frame) (y : List Cell)
    (hentry : entry ≠ .other)
    (hsucc : prep_predictor_cols st c entry nsel tsel = .val (x, y)) :
    ∀ a ∈ x.colNames,
      a ∈ (blocksFor st c entry nsel tsel).1.colNames
      ∨ a ∈ (blocksFor st c entry nsel tsel).2.1.colNames
      ∨ a ∈ (blocksFor st c entry nsel tsel).2.2.colNames := by
  intro a ha
  have hspec := prep_val_spec st c entry nsel tsel x y hentry hsucc
  rw [hspec.2.1] at ha
  rcases List.mem_flatten.mp ha with ⟨ns, hns, hans⟩
  rcases List.mem_map.mp hns with ⟨fr, hfr, hfrn⟩
  have hfr3 := List.mem_of_mem_filter hfr
  have hafr : a ∈ fr.colNames := by rw [hfrn]; exact hans
  rcases List.mem_cons.mp hfr3 with h1 | h1
  · rw [h1] at hafr; exact Or.inl hafr
  rcases List.mem_cons.mp h1 with h2 | h2
  · rw [h2] at hafr; exact Or.inr (Or.inl hafr)
  rcases List.mem_cons.mp h2 with h3 | h3
  · rw [h3] at hafr; exact Or.inr (Or.inr hafr)
  · simp at h3

theorem prep_val_colNames (df : DFrame) (c : String) (entry : PredEntry)
    (nsel tsel : List String) (x : Frame) (y : List Cell)
    (hentry : entry ≠ .other)
    (hsucc : prep_predictor_cols (prep_fit_dataframe df) c entry nsel tsel
      = .val (x, y)) :
    x.colNames
      = (blocksFor (prep_fit_dataframe df) c entry nsel tsel).1.colNames
        ++ (blocksFor (prep_fit_dataframe df) c entry nsel tsel).2.1.colNames
        ++ (blocksFor (prep_fit_dataframe df) c entry nsel tsel).2.2.colNames := by
  set st := prep_fit_dataframe df with hst
  have hspec := prep_val_spec st c entry nsel tsel x y hentry hsucc
  by_cases hI : df.idx = []
  · exfalso
    apply hspec.2.2
    rw [List.filter_eq_nil_iff]
    intro fr hfr
    have hzero : fr.size = 0 := by
      rcases List.mem_cons.mp hfr with h1 | h1
      · subst h1
        unfold Frame.size
        rw [blocksFor_b1_idx df c entry nsel tsel hentry, hI]
        simp
      rcases List.mem_cons.mp h1 with h2 | h2
      · subst h2
        by_cases hnil : (blocksFor st c entry nsel tsel).2.1.colNames = []
        · exact size_zero_of_colNames_nil _ hnil
        · unfold Frame.size
          rw [blocksFor_b2_idx df c entry nsel tsel hentry hnil, hI]
          simp
      rcases List.mem_cons.mp h2 with h3 | h3
      · subst h3
        unfold Frame.size
        rw [blocksFor_b3_idx df c entry nsel tsel hentry, hI]
        simp
      · simp at h3
    simp [hzero]
  · have hiff : ∀ fr ∈ [(blocksFor st c entry nsel tsel).1,
        (blocksFor st c entry nsel tsel).2.1,
        (blocksFor st c entry nsel tsel).2.2],
        (0 < fr.size ↔ fr.colNames ≠ []) := by
      intro fr hfr
      rcases List.mem_cons.mp hfr with h1 | h1
      · subst h1
        rw [size_pos_iff _ df.idx (blocksFor_b1_idx df c entry nsel tsel hentry)]
        exact and_iff_left hI
      rcases List.mem_cons.mp h1 with h2 | h2
      · subst h2
        by_cases hnil : (blocksFor st c entry nsel tsel).2.1.colNames = []
        · constructor
          · intro hpos
            exact absurd (size_zero_of_colNames_nil _ hnil) (by omega)
          · intro hne
            exact absurd hnil hne
        · rw [size_pos_iff _ df.idx (blocksFor_b2_idx df c entry nsel tsel hentry hnil)]
          exact and_iff_left hI
      rcases List.mem_cons.mp h2 with h3 | h3
      · subst h3
        rw [size_pos_iff _ df.idx (blocksFor_b3_idx df c entry nsel tsel hentry)]
        exact and_iff_left hI
      · simp at h3
    rw [hspec.2.1, filter_size_flatten _ hiff]
    simp [List.append_assoc]

/-! ## Claim C1 — assembly never includes the target's own columns -/

/-- C1: for every fitted dataset whose labels are duplicate-free and whose
dummy labels are fresh, and every target `c` with a valid resolved predictor
entry (the `"all"` marker, a single column, or an explicit list), a design
matrix returned by `_prep_predictor_cols` contains neither `c`'s own numeric
column nor any dummy column generated from `c`. -/
theorem prep_predictor_cols_excludes_target (df : DFrame) (st : FitState)
    (c : String) (entry : PredEntry) (nsel tsel : List String)
    (x : Frame) (y : List Cell)
    (hst : st = prep_fit_dataframe df)
    (hnames : df.colNames.Nodup)
    (hdum : st.cols_dum.Nodup)
    (hdisj : ∀ a ∈ st.cols_dum, a ∉ df.colNames)
    (hentry : entry ≠ .other)
    (hnsel : entry ≠ .str "all" →
      SetListOf nsel (predsOf entry) (numCandidates st c).colNames)
    (htsel : entry ≠ .str "all" → SetListOf tsel (predsOf entry) st.cols_time)
    (hsucc : prep_predictor_cols st c entry nsel tsel = .val (x, y)) :
    (c ∈ st.cols_num → c ∉ x.colNames)
    ∧ ∀ a ∈ dumsOf st c, a ∉ x.colNames := by
  subst hst
  constructor
  · intro hcnum hcx
    rcases prep_val_mem _ c entry nsel tsel x y hentry hsucc c hcx
      with h1 | h2 | h3
    · have hq := (mem_numCandidates df c c).mp
        (blocksFor_b1_mem df c entry nsel tsel c hentry h1)
      exact (hq.2 hcnum) rfl
    · have hcd := blocksFor_b2_mem df c entry nsel tsel c hentry h2
      have hcdf : c ∈ df.colNames :=
        selectDtypes_subset df .num c (by rw [prep_cols_num] at hcnum; exact hcnum)
      exact hdisj c hcd hcdf
    · have hct := blocksFor_b3_mem df c entry nsel tsel c hentry h3
      rw [prep_cols_time] at hct
      exact selectDtypes_disjoint df hnames .num .time (by decide) c
        (by rw [prep_cols_num] at hcnum; exact hcnum) hct
  · intro a ha hax
    by_cases hcorig : c ∈ (prep_fit_dataframe df).orig_dum
    · rcases prep_val_mem _ c entry nsel tsel x y hentry hsucc a hax
        with h1 | h2 | h3
      · have hnum := ((mem_numCandidates df c a).mp
          (blocksFor_b1_mem df c entry nsel tsel a hentry h1)).1
        have hadf : a ∈ df.colNames :=
          selectDtypes_subset df .num a (by rw [prep_cols_num] at hnum; exact hnum)
        exact hdisj a (dumsOf_subset_cols_dum df c a ha) hadf
      · rcases blocksFor_b2_excl df c entry nsel tsel a hentry hcorig h2
          with ⟨q, hq, hqc, haq⟩
        rcases dumsOf_mem _ c a ha with ⟨p, hp, hpc, hap⟩
        have hpq := flatten_nodup_same_key _
          (by rw [← prep_cols_dum_flatten]; exact hdum) p hp q hq a hap haq
        exact hqc (by rw [← hpq, hpc])
      · have hat := blocksFor_b3_mem df c entry nsel tsel a hentry h3
        have hadf : a ∈ df.colNames :=
          selectDtypes_subset df .time a (by rw [prep_cols_time] at hat; exact hat)
        exact hdisj a (dumsOf_subset_cols_dum df c a ha) hadf
    · have hnil : dumsOf (prep_fit_dataframe df) c = [] :=
        dumsOf_eq_nil _ c (by rw [prep_keys_dum_dict]; exact hcorig)
      rw [hnil] at ha
      simp at ha

/-- C1 witness: assembling categorical target `B` of `dfEx` with the `"all"`
marker yields design columns `[A, C]`, which contain neither a `B` column
nor `B`'s dummies `B_x`, `B_y`. -/
theorem prep_predictor_cols_excludes_target_witness :
    ("B" ∈ (prep_fit_dataframe dfEx).cols_num →
      "B" ∉ (Frame.mk [0, 1] [("A", [Cell.num 1, Cell.na]),
        ("C", [Cell.time 5, Cell.time 6])]).colNames)
    ∧ ∀ a ∈ dumsOf (prep_fit_dataframe dfEx) "B",
        a ∉ (Frame.mk [0, 1] [("A", [Cell.num 1, Cell.na]),
          ("C", [Cell.time 5, Cell.time 6])]).colNames :=
  prep_predictor_cols_excludes_target dfEx (prep_fit_dataframe dfEx) "B"
    (.str "all") [] []
    (Frame.mk [0, 1] [("A", [Cell.num 1, Cell.na]),
      ("C", [Cell.time 5, Cell.time 6])])
    [Cell.num 0, Cell.num 0]
    rfl (by decide) (by decide) (by decide) (by decide)
    (fun h => absurd rfl h) (fun h => absurd rfl h) (by decide)

/-! ## Claim C3 — block ordering of the design matrix -/

theorem blocksFor_b2_sublist (df : DFrame) (c : String) (entry : PredEntry)
    (nsel tsel : List String) (hentry : entry ≠ .other)
    (hdum : (prep_fit_dataframe df).cols_dum.Nodup) :
    (blocksFor (prep_fit_dataframe df) c entry nsel tsel).2.1.colNames.Sublist
      (prep_fit_dataframe df).cols_dum := by
  set st := prep_fit_dataframe df with hst
  have hdum' : st.data_dum.colNames.Nodup := hdum
  cases entry with
  | other => exact absurd rfl hentry
  | str s =>
      by_cases hs : s = "all"
      · subst hs
        rw [show (blocksFor st c (.str "all") nsel tsel).2.1
            = (use_all_cols st c).2.1 from rfl, use_all_b2_eq]
        by_cases hc : c ∈ st.orig_dum
        · rw [if_pos hc, colNames_selectCols_filter _ _ hdum']
          exact List.filter_sublist _
        · rw [if_neg hc]
          exact List.Sublist.refl _
      · rw [show (blocksFor st c (.str s) nsel tsel).2.1
            = (use_iter_cols st c [s] nsel tsel).2.1 by
              simp [blocksFor, hs], use_iter_b2_eq,
          colNames_selectCols_filter _ _ hdum']
        exact List.filter_sublist _
  | list l =>
      rw [show (blocksFor st c (.list l) nsel tsel).2.1
          = (use_iter_cols st c l nsel tsel).2.1 from rfl, use_iter_b2_eq,
        colNames_selectCols_filter _ _ hdum']
      exact List.filter_sublist _

/-- C3 counterexample: on the all-numeric dataset `dfNum3` (columns
`A, B1, B2`), target `A` with the explicit predictor list `["B1", "B2"]` and
the admissible CPython set enumeration `["B2", "B1"]`, assembly succeeds with
design columns `[B2, B1]` — not a sublist of the declaration order
`[A, B1, B2]`, so the numeric block does not preserve declaration order. -/
theorem prep_predictor_cols_block_order_cx :
    SetListOf ["B2", "B1"] ["B1", "B2"]
      (numCandidates (prep_fit_dataframe dfNum3) "A").colNames
    ∧ SetListOf [] ["B1", "B2"] (prep_fit_dataframe dfNum3).cols_time
    ∧ prepXNames (prep_predictor_cols (prep_fit_dataframe dfNum3) "A"
        (.list ["B1", "B2"]) ["B2", "B1"] []) = some ["B2", "B1"]
    ∧ ¬ (["B2", "B1"].Sublist (prep_fit_dataframe dfNum3).cols_num) := by
  refine ⟨?_, ?_, ?_, ?_⟩
  · unfold SetListOf; decide
  · unfold SetListOf; decide
  · decide
  · decide

/-- C3 amended: a successful design matrix always lists the numeric block,
then the dummy block, then the datetime block; the dummy block always keeps
the dummy group's declaration order; and when the resolved entry is the
`"all"` marker the numeric and datetime blocks also keep declaration order.
With an explicit predictor list, the numeric and datetime blocks' internal
order is whatever enumeration Python's set produced. -/
theorem prep_predictor_cols_block_order (df : DFrame) (st : FitState)
    (c : String) (entry : PredEntry) (nsel tsel : List String)
    (x : Frame) (y : List Cell)
    (hst : st = prep_fit_dataframe df)
    (hdum : st.cols_dum.Nodup)
    (hentry : entry ≠ .other)
    (hnsel : entry ≠ .str "all" →
      SetListOf nsel (predsOf entry) (numCandidates st c).colNames)
    (htsel : entry ≠ .str "all" → SetListOf tsel (predsOf entry) st.cols_time)
    (hsucc : prep_predictor_cols st c entry nsel tsel = .val (x, y)) :
    x.colNames
      = (blocksFor st c entry nsel tsel).1.colNames
        ++ (blocksFor st c entry nsel tsel).2.1.colNames
        ++ (blocksFor st c entry nsel tsel).2.2.colNames
    ∧ (blocksFor st c entry nsel tsel).2.1.colNames.Sublist st.cols_dum
    ∧ (entry = .str "all" →
        (blocksFor st c entry nsel tsel).1.colNames.Sublist st.cols_num
        ∧ (blocksFor st c entry nsel tsel).2.2.colNames = st.cols_time) := by
  subst hst
  refine ⟨prep_val_colNames df c entry nsel tsel x y hentry hsucc,
    blocksFor_b2_sublist df c entry nsel tsel hentry hdum, ?_⟩
  intro hall
  subst hall
  exact ⟨numCandidates_sublist df c, rfl⟩

/-- C3 witness: assembling numeric target `A` of `dfEx` with the `"all"`
marker yields design columns `[B_x, B_y, C]`: numeric block (empty), then
`B`'s dummies in declaration order, then the datetime block. -/
theorem prep_predictor_cols_block_order_witness :
    (Frame.mk [0, 1] [("B_x", [Cell.num 1, Cell.num 0]),
        ("B_y", [Cell.num 0, Cell.num 1]),
        ("C", [Cell.time 5, Cell.time 6])]).colNames
      = (blocksFor (prep_fit_dataframe dfEx) "A" (.str "all") [] []).1.colNames
        ++ (blocksFor (prep_fit_dataframe dfEx) "A" (.str "all") [] []).2.1.colNames
        ++ (blocksFor (prep_fit_dataframe dfEx) "A" (.str "all") [] []).2.2.colNames
    ∧ (blocksFor (prep_fit_dataframe dfEx) "A" (.str "all") [] []).2.1.colNames.Sublist
        (prep_fit_dataframe dfEx).cols_dum
    ∧ ((PredEntry.str "all") = .str "all" →
        (blocksFor (prep_fit_dataframe dfEx) "A" (.str "all") [] []).1.colNames.Sublist
          (prep_fit_dataframe dfEx).cols_num
        ∧ (blocksFor (prep_fit_dataframe dfEx) "A" (.str "all") [] []).2.2.colNames
            = (prep_fit_dataframe dfEx).cols_time) :=
  prep_predictor_cols_block_order dfEx (prep_fit_dataframe dfEx) "A"
    (.str "all") [] []
    (Frame.mk [0, 1] [("B_x", [Cell.num 1, Cell.num 0]),
      ("B_y", [Cell.num 0, Cell.num 1]),
      ("C", [Cell.time 5, Cell.time 6])])
    [Cell.num 0, Cell.num 1]
    rfl (by decide) (by decide)
    (fun h => absurd rfl h) (fun h => absurd rfl h) (by decide)

/-! ## Claim C7 — error condition and return value of assembly -/

/-- C7 counterexample: on the zero-row dataset `dfZero` (numeric columns
`A, B`), target `A` with the `"all"` marker has a non-empty numeric predictor
block (`[B]`), yet `_prep_predictor_cols` raises (`pd.concat` on an empty
list), because every block has `size == 0` when the dataset has no rows. -/
theorem prep_predictor_cols_error_iff_cx :
    prep_predictor_cols (prep_fit_dataframe dfZero) "A" (.str "all") [] []
      = .valueError concatEmptyErr
    ∧ (blocksFor (prep_fit_dataframe dfZero) "A" (.str "all") [] []).1.colNames
        = ["B"] := by
  refine ⟨?_, ?_⟩ <;> decide

/-- C7 amended: `_prep_predictor_cols` raises a `ValueError` if and only if
all three predictor blocks have size zero (no predictor columns, or a
dataset with no rows); whenever it returns, it returns the concatenation of
the positive-size blocks in numeric/dummy/datetime order paired with the
target's missingness-mask column. -/
theorem prep_predictor_cols_error_iff (df : DFrame) (st : FitState)
    (c : String) (entry : PredEntry) (nsel tsel : List String)
    (hst : st = prep_fit_dataframe df)
    (hentry : entry ≠ .other)
    (hnsel : entry ≠ .str "all" →
      SetListOf nsel (predsOf entry) (numCandidates st c).colNames)
    (htsel : entry ≠ .str "all" → SetListOf tsel (predsOf entry) st.cols_time) :
    ((∃ m, prep_predictor_cols st c entry nsel tsel = .valueError m)
      ↔ ((blocksFor st c entry nsel tsel).1.size = 0
        ∧ (blocksFor st c entry nsel tsel).2.1.size = 0
        ∧ (blocksFor st c entry nsel tsel).2.2.size = 0))
    ∧ (∀ x y, prep_predictor_cols st c entry nsel tsel = .val (x, y) →
        y = st.data_mi.getCol c
        ∧ x.colNames
            = (blocksFor st c entry nsel tsel).1.colNames
              ++ (blocksFor st c entry nsel tsel).2.1.colNames
              ++ (blocksFor st c entry nsel tsel).2.2.colNames) := by
  subst hst
  refine ⟨prep_error_iff_st _ c entry nsel tsel hentry, ?_⟩
  intro x y hsucc
  exact ⟨(prep_val_spec _ c entry nsel tsel x y hentry hsucc).1,
    prep_val_colNames df c entry nsel tsel x y hentry hsucc⟩

/-- C7 witness: the error-iff equivalence and return-shape instantiated on
`dfEx` with target `A` and the `"all"` marker. -/
theorem prep_predictor_cols_error_iff_witness :
    ((∃ m, prep_predictor_cols (prep_fit_dataframe dfEx) "A" (.str "all") [] []
        = .valueError m)
      ↔ ((blocksFor (prep_fit_dataframe dfEx) "A" (.str "all") [] []).1.size = 0
        ∧ (blocksFor (prep_fit_dataframe dfEx) "A" (.str "all") [] []).2.1.size = 0
        ∧ (blocksFor (prep_fit_dataframe dfEx) "A" (.str "all") [] []).2.2.size = 0))
    ∧ (∀ x y, prep_predictor_cols (prep_fit_dataframe dfEx) "A" (.str "all") [] []
          = .val (x, y) →
        y = (prep_fit_dataframe dfEx).data_mi.getCol "A"
        ∧ x.colNames
            = (blocksFor (prep_fit_dataframe dfEx) "A" (.str "all") [] []).1.colNames
              ++ (blocksFor (prep_fit_dataframe dfEx) "A" (.str "all") [] []).2.1.colNames
              ++ (blocksFor (prep_fit_dataframe dfEx) "A" (.str "all") [] []).2.2.colNames) :=
  prep_predictor_cols_error_iff dfEx (prep_fit_dataframe dfEx) "A"
    (.str "all") [] [] rfl (by decide)
    (fun h => absurd rfl h) (fun h => absurd rfl h)

/-! ## Claim C9 — column classification -/

/-- C9 counterexample: a dataset whose only column `F` has bool dtype —
selected by none of `np.number`, `np.object`, `np.datetime64` — leaves all
three recorded groups empty, so the groups' union misses `F`. -/
theorem prep_fit_dataframe_partition_cx :
    (prep_fit_dataframe dfBool).cols_num = []
    ∧ (prep_fit_dataframe dfBool).orig_dum = []
    ∧ (prep_fit_dataframe dfBool).cols_time = []
    ∧ dfBool.colNames = ["F"] := by
  refine ⟨?_, ?_, ?_, ?_⟩ <;> decide

/-- C9 amended: for a dataset with duplicate-free column names, the three
recorded groups (numeric, categorical-original, datetime) are pairwise
disjoint, and a column's name lands in their union exactly when its dtype is
numeric, object, or datetime — columns of any other dtype (e.g. bool) belong
to no group. -/
theorem prep_fit_dataframe_partition (df : DFrame)
    (hnames : df.colNames.Nodup) :
    ((∀ a ∈ (prep_fit_dataframe df).cols_num,
        a ∉ (prep_fit_dataframe df).orig_dum)
     ∧ (∀ a ∈ (prep_fit_dataframe df).cols_num,
        a ∉ (prep_fit_dataframe df).cols_time)
     ∧ (∀ a ∈ (prep_fit_dataframe df).orig_dum,
        a ∉ (prep_fit_dataframe df).cols_time))
    ∧ ∀ col ∈ df.cols,
        ((col.name ∈ (prep_fit_dataframe df).cols_num
          ∨ col.name ∈ (prep_fit_dataframe df).orig_dum
          ∨ col.name ∈ (prep_fit_dataframe df).cols_time)
        ↔ (col.dtype = .num ∨ col.dtype = .obj ∨ col.dtype = .time)) := by
  constructor
  · refine ⟨?_, ?_, ?_⟩
    · intro a ha
      rw [prep_cols_num] at ha
      rw [prep_orig_dum]
      exact selectDtypes_disjoint df hnames .num .obj (by decide) a ha
    · intro a ha
      rw [prep_cols_num] at ha
      rw [prep_cols_time]
      exact selectDtypes_disjoint df hnames .num .time (by decide) a ha
    · intro a ha
      rw [prep_orig_dum] at ha
      rw [prep_cols_time]
      exact selectDtypes_disjoint df hnames .obj .time (by decide) a ha
  · intro col hcol
    rw [prep_cols_num, prep_orig_dum, prep_cols_time]
    constructor
    · intro h
      rcases h with h | h | h
      all_goals
        rcases (mem_selectDtypes_colNames df _ _).mp h with ⟨c', hc', ht', hn'⟩
      · exact Or.inl (by rw [List.inj_on_of_nodup_map hnames hcol hc' hn'.symm]; exact ht')
      · exact Or.inr (Or.inl (by rw [List.inj_on_of_nodup_map hnames hcol hc' hn'.symm]; exact ht'))
      · exact Or.inr (Or.inr (by rw [List.inj_on_of_nodup_map hnames hcol hc' hn'.symm]; exact ht'))
    · intro h
      rcases h with h | h | h
      · exact Or.inl ((mem_selectDtypes_colNames df .num col.name).mpr
          ⟨col, hcol, h, rfl⟩)
      · exact Or.inr (Or.inl ((mem_selectDtypes_colNames df .obj col.name).mpr
          ⟨col, hcol, h, rfl⟩))
      · exact Or.inr (Or.inr ((mem_selectDtypes_colNames df .time col.name).mpr
          ⟨col, hcol, h, rfl⟩))

/-- C9 witness: the partition facts instantiated on `dfEx` (one column of
each selected dtype). -/
theorem prep_fit_dataframe_partition_witness :
    ((∀ a ∈ (prep_fit_dataframe dfEx).cols_num,
        a ∉ (prep_fit_dataframe dfEx).orig_dum)
     ∧ (∀ a ∈ (prep_fit_dataframe dfEx).cols_num,
        a ∉ (prep_fit_dataframe dfEx).cols_time)
     ∧ (∀ a ∈ (prep_fit_dataframe dfEx).orig_dum,
        a ∉ (prep_fit_dataframe dfEx).cols_time))
    ∧ ∀ col ∈ dfEx.cols,
        ((col.name ∈ (prep_fit_dataframe dfEx).cols_num
          ∨ col.name ∈ (prep_fit_dataframe dfEx).orig_dum
          ∨ col.name ∈ (prep_fit_dataframe dfEx).cols_time)
        ↔ (col.dtype = .num ∨ col.dtype = .obj ∨ col.dtype = .time)) :=
  prep_fit_dataframe_partition dfEx (by decide)

/-! ## Claim C8 — scaling and the row index -/

/-- C8 failing-input evaluation: fitting `dfIdx` (row index `[5, 6]`, one
numeric column `A`) and applying `_scaler_fit` + `_scaler_transform` with an
identity-transform scaler keeps the numeric block's column labels but
replaces its row index with the default `RangeIndex` `[0, 1]`: the rebuilt
block no longer carries the dataset's original index `[5, 6]`, because
`pd.DataFrame(sn, columns=...)` is constructed without `index=`. -/
theorem scaler_transform_resets_index :
    (scaler_fit_transform (prep_fit_dataframe dfIdx) id).data_num.colNames
      = ["A"]
    ∧ (scaler_fit_transform (prep_fit_dataframe dfIdx) id).data_num.idx
        = [0, 1]
    ∧ (prep_fit_dataframe dfIdx).X_idx = [5, 6]
    ∧ (scaler_fit_transform (prep_fit_dataframe dfIdx) id).data_num.idx
        ≠ (prep_fit_dataframe dfIdx).X_idx := by
  refine ⟨?_, ?_, ?_, ?_⟩ <;> decide
